import Mathlib

/-!
# Verification of the macOS automation agent's step-execution engine

Shallow embedding of the repository's orchestration logic:

* `subagents/applescript.py` — the multi-attempt AppleScript step controller
  (`AppleScriptHandler`), its approval gate, executor, verifier and the
  module-level singleton dispatch (`namespace AppleScript`);
* `subagents/research.py` — the web-search handler (`namespace Research`);
* `master-agent.py` — the plan orchestrator (`namespace MasterAgent`);
* `agent.py` — the single-step legacy path (`namespace Agent`).

External services (OpenAI / Anthropic calls, `subprocess.run`, console
`input()`) are modelled as oracles: functions from the index of the call
(how many such calls happened before) to the call's outcome, plus an
explicit list of console input lines.  Python exceptions at a service
boundary are the `Option.none` / `Except.error` branch of the oracle.
-/

/-! ## Python string primitives

We model Python's `str.strip`, `str.lower` and friends directly on the
character list underlying `String`, so that every definition reduces in the
kernel.  Python's `strip()` removes leading/trailing whitespace; `lower()`
maps characters to lower case.
-/

def trimLeadChars : List Char → List Char
  | [] => []
  | c :: cs => if c.isWhitespace then trimLeadChars cs else c :: cs

/-- Python `s.strip()` : drop leading and trailing whitespace. -/
def pyStrip (s : String) : String :=
  ⟨(trimLeadChars (trimLeadChars s.data).reverse).reverse⟩

/-- Python `s.lower()`. -/
def pyLower (s : String) : String :=
  ⟨s.data.map Char.toLower⟩

/-- Python `s.strip().lower()`, the normalisation applied to every console
approval answer in the repository. -/
def pyNorm (s : String) : String :=
  pyLower (pyStrip s)

/-- Rendering of a Python `bool` inside an f-string. -/
def pyBool (b : Bool) : String :=
  if b then "True" else "False"

/-- Does `pat` occur as a prefix of `s` (on character lists)? -/
def leadsWith : List Char → List Char → Bool
  | [], _ => true
  | _ :: _, [] => false
  | p :: ps, c :: cs => p == c && leadsWith ps cs

/-- Does `pat` occur as a contiguous substring of `s`? -/
def hasSubChars (s pat : List Char) : Bool :=
  if leadsWith pat s then true
  else
    match s with
    | [] => false
    | _ :: t => hasSubChars t pat

/-- Python `pat in s` for strings. -/
def containsSub (s pat : String) : Bool :=
  hasSubChars s.data pat.data

/-! ## Heterogeneous result dictionaries

The handlers exchange untyped Python dicts whose values are strings or
booleans; `Dict` models them as association lists with Python `dict.get`
semantics. -/

inductive DVal where
  | str (s : String)
  | bool (b : Bool)
  deriving DecidableEq, Repr

/-- A Python result dictionary. -/
abbrev Dict := List (String × DVal)

/-- Python `d.get(k)` (returns `None` when the key is absent). -/
def dget (d : Dict) (k : String) : Option DVal :=
  match d with
  | [] => none
  | (k', v) :: rest => if k' = k then some v else dget rest k

/-- Python `d.get(k, default)`. -/
def dgetD (d : Dict) (k : String) (v : DVal) : DVal :=
  (dget d k).getD v

/-- Python truthiness of an optional dict value (`None` and `False` and the
empty string are falsy). -/
def truthy : Option DVal → Bool
  | none => false
  | some (.str s) => s ≠ ""
  | some (.bool b) => b

/-- Rendering of a dict value inside an f-string. -/
def pyStr : DVal → String
  | .str s => s
  | .bool b => pyBool b

/-- Python `'\n'.join(parts)`. -/
def joinParts : List String → String
  | [] => ""
  | [p] => p
  | p :: ps => p ++ "\n" ++ joinParts ps

/-! Sanity checks on the primitives (kernel-evaluated). -/

example : pyNorm " Y " = "y" := by decide

example : pyNorm "no" = "no" := by decide

example : containsSub "Script execution timed out" "timed out" = true := by decide

example : truthy (dget [("error", .bool true)] "error") = true := by decide

/-! ## `subagents/applescript.py` — the multi-attempt step controller -/

namespace AppleScript

/-- `TaskVerification` (pydantic model, applescript.py lines 18–20). -/
structure TaskVerification where
  accomplished : Bool
  summary : String
  deriving DecidableEq, Repr

/-- The dict `{'success': …, 'output': …, 'return_code': …}` built by
`_execute_applescript` / `_execute_script`. -/
structure ExecResult where
  success : Bool
  output : String
  return_code : Int
  deriving DecidableEq, Repr

/-- Outcome of one `subprocess.run(['osascript', '-e', script], …, timeout=30)`
call: normal completion with a return code and captured streams, the
30-second timeout (`subprocess.TimeoutExpired`), or any other exception
raised while launching/running the process. -/
inductive RunOutcome where
  | completed (returncode : Int) (stdout stderr : String)
  | timedOut
  | raised (e : String)
  deriving DecidableEq, Repr

/-- The external world of `AppleScriptHandler`: the script-generation
service, the process runner and the verification service, each indexed by
how many calls of that kind happened before.  `gen n = none` models the
generation request raising; `verify n = .error e` models the verification
request raising with message `e`. -/
structure World where
  gen : Nat → Option String
  run : Nat → RunOutcome
  verify : Nat → Except String TaskVerification

/-- `self.internal_context` (applescript.py lines 25–34): one list per
category, each only ever appended to by `_add_to_internal_context`. -/
structure InternalContext where
  proposed_scripts : List String
  user_approvals : List Bool
  user_feedback : List String
  executed_scripts : List String
  execution_outputs : List String
  llm_assessments : List String
  user_confirmations : List Bool
  failure_reasons : List String
  deriving DecidableEq, Repr

def emptyContext : InternalContext :=
  ⟨[], [], [], [], [], [], [], []⟩

/-- Handler state: the internal context plus the oracle cursors, and (model
instrumentation) the full user-content string of every generation request,
so that theorems can talk about what the Generator is shown. -/
structure HState where
  ctx : InternalContext
  genCalls : Nat
  runCalls : Nat
  verifyCalls : Nat
  genRequests : List String
  deriving DecidableEq, Repr

def initState : HState :=
  ⟨emptyContext, 0, 0, 0, []⟩

def recApproval (b : Bool) (s : HState) : HState :=
  { s with ctx := { s.ctx with user_approvals := s.ctx.user_approvals ++ [b] } }

def recFeedback (f : String) (s : HState) : HState :=
  { s with ctx := { s.ctx with user_feedback := s.ctx.user_feedback ++ [f] } }

def recConfirmation (b : Bool) (s : HState) : HState :=
  { s with ctx := { s.ctx with user_confirmations := s.ctx.user_confirmations ++ [b] } }

def recFailureReason (r : String) (s : HState) : HState :=
  { s with ctx := { s.ctx with failure_reasons := s.ctx.failure_reasons ++ [r] } }

def recExec (script output : String) (s : HState) : HState :=
  { s with ctx := { s.ctx with
      executed_scripts := s.ctx.executed_scripts ++ [script],
      execution_outputs := s.ctx.execution_outputs ++ [output] } }

def recAssessment (a : String) (s : HState) : HState :=
  { s with ctx := { s.ctx with llm_assessments := s.ctx.llm_assessments ++ [a] } }

/-- The per-attempt lines of `_get_context_summary` (lines 68–76): for each
proposed script, its approval status (or `"pending"`), and the user feedback
at the same index when nonempty. -/
def attemptParts (approvals : List Bool) (feedbacks : List String) :
    Nat → List String → List String
  | _, [] => []
  | i, script :: rest =>
    let approval := match approvals.get? i with
      | some b => pyBool b
      | none => "pending"
    let feedback := (feedbacks.getD i "")
    (["Attempt " ++ toString (i + 1) ++ ": " ++ script,
      "User approved: " ++ approval] ++
      (if feedback ≠ "" then ["User feedback: " ++ feedback] else [])) ++
      attemptParts approvals feedbacks (i + 1) rest

/-- The executed-script lines of `_get_context_summary` (lines 78–85). -/
def execParts (outputs assessments : List String) :
    Nat → List String → List String
  | _, [] => []
  | i, script :: rest =>
    ["Script: " ++ script,
     "Output: " ++ outputs.getD i "",
     "LLM assessment: " ++ assessments.getD i ""] ++
      execParts outputs assessments (i + 1) rest

/-- `_get_user_script_approval`'s companion `_get_context_summary`
(lines 64–92): the newline-joined summary of all recorded attempts. -/
def contextSummary (c : InternalContext) : String :=
  joinParts
    ((if c.proposed_scripts.isEmpty then [] else
        "Previous AppleScript attempts:" ::
          attemptParts c.user_approvals c.user_feedback 0 c.proposed_scripts) ++
     (if c.executed_scripts.isEmpty then [] else
        "\nExecuted scripts and results:" ::
          execParts c.execution_outputs c.llm_assessments 0 c.executed_scripts) ++
     (if c.failure_reasons.isEmpty then [] else
        "\nPrevious failure reasons:" ::
          c.failure_reasons.map (fun r => "- " ++ r)))

/-- `_generate_applescript` (lines 94–128): builds the request from the task
prompt, the external context and the internal-context summary, calls the
generation service, and on success records the proposal in
`proposed_scripts`.  Returns `none` when the service raises. -/
def generateApplescript (w : World) (prompt context : String) (s : HState) :
    Option String × HState :=
  let summary := contextSummary s.ctx
  let full0 := "Task prompt: " ++ prompt ++ "\nExternal context: " ++ context
  let full := if summary ≠ "" then
      full0 ++ "\n\nInternal context from previous attempts:\n" ++ summary
    else full0
  let s0 := { s with genRequests := s.genRequests ++ [full] }
  match w.gen s0.genCalls with
  | some script =>
    (some script,
     { s0 with
        genCalls := s0.genCalls + 1,
        ctx := { s0.ctx with proposed_scripts := s0.ctx.proposed_scripts ++ [script] } })
  | none => (none, { s0 with genCalls := s0.genCalls + 1 })

/-- Result of `_get_user_script_approval` (a `tuple[bool, Optional[str]]` in
the source): `approved script` is `(True, current_script)`, `rejected fb` the
`(False, …)` returns, and `eof` models `input()` raising `EOFError` when the
console stream is exhausted. -/
inductive GateOutcome where
  | approved (script : String)
  | rejected (feedback : Option String)
  | eof
  deriving DecidableEq, Repr

/-- `_get_user_script_approval` (lines 130–165).  The console is the list
`inputs` of lines, consumed one `input()` at a time.  On reject-with-feedback
the handler regenerates through `_generate_applescript` and loops on the new
script; on reject-without-feedback it returns `(False, None)`; unrecognized
answers re-prompt. -/
def getUserScriptApproval (w : World) (prompt context current : String) :
    List String → HState → GateOutcome × List String × HState
  | [], s => (.eof, [], s)
  | a :: rest, s =>
    let ans := pyNorm a
    if ans = "y" ∨ ans = "yes" then
      (.approved current, rest, recApproval true s)
    else if ans = "n" ∨ ans = "no" then
      let s1 := recApproval false s
      match rest with
      | [] => (.eof, [], s1)
      | fb :: rest2 =>
        let f := pyStrip fb
        if f ≠ "" then
          let gr := generateApplescript w prompt context (recFeedback f s1)
          match gr.1 with
          | some ns =>
            if ns = "" then (.rejected (some f), rest2, gr.2)
            else getUserScriptApproval w prompt context ns rest2 gr.2
          | none => (.rejected (some f), rest2, gr.2)
        else
          (.rejected none, rest2, recFeedback "No specific feedback provided" s1)
    else
      getUserScriptApproval w prompt context current rest s

/-- `_execute_applescript` (lines 167–202): run the script through the
process runner with a 30-second timeout and normalize every outcome to an
`ExecResult`; the executed script and its output are recorded in the
internal context in all three branches. -/
def executeApplescript (w : World) (script : String) (s : HState) :
    ExecResult × HState :=
  let s0 := { s with runCalls := s.runCalls + 1 }
  match w.run s.runCalls with
  | .completed rc stdout stderr =>
    let r : ExecResult := ⟨decide (rc = 0), stdout ++ stderr, rc⟩
    (r, recExec script r.output s0)
  | .timedOut =>
    let r : ExecResult := ⟨false, "Script execution timed out", -1⟩
    (r, recExec script r.output s0)
  | .raised e =>
    let r : ExecResult := ⟨false, e, -1⟩
    (r, recExec script r.output s0)

/-- `_verify_task_completion` (lines 204–243): ask the verification service;
if it raises, fall back to the execution result's own success flag with a
summary saying verification degraded to the raw execution output. -/
def verifyTaskCompletion (w : World) (execResult : ExecResult) (s : HState) :
    TaskVerification × HState :=
  let s0 := { s with verifyCalls := s.verifyCalls + 1 }
  match w.verify s.verifyCalls with
  | .ok v =>
    (v, recAssessment ("Accomplished: " ++ pyBool v.accomplished ++ ", Summary: " ++ v.summary) s0)
  | .error e =>
    (⟨execResult.success, "Verification failed, using execution result: " ++ execResult.output⟩,
     recAssessment ("Verification error: " ++ e) s0)

/-- Result of `_get_user_task_confirmation` (a `tuple[bool, Optional[str]]`). -/
inductive ConfirmOutcome where
  | confirmed
  | denied (feedback : Option String)
  | eof
  deriving DecidableEq, Repr

/-- `_get_user_task_confirmation` (lines 245–263); re-prompts itself
recursively on unrecognized input. -/
def getUserTaskConfirmation : List String → HState → ConfirmOutcome × List String × HState
  | [], s => (.eof, [], s)
  | a :: rest, s =>
    let ans := pyNorm a
    if ans = "y" ∨ ans = "yes" then
      (.confirmed, rest, recConfirmation true s)
    else if ans = "n" ∨ ans = "no" then
      let s1 := recConfirmation false s
      match rest with
      | [] => (.eof, [], s1)
      | fb :: rest2 =>
        let f := pyStrip fb
        if f ≠ "" then (.denied (some f), rest2, recFailureReason f s1)
        else
          (.denied none, rest2,
           recFailureReason "User said task not accomplished but provided no specific feedback" s1)
    else
      getUserTaskConfirmation rest s

/-- The dict returned by `handle` when an attempt fully succeeds
(lines 310–316). -/
def successDict (prompt script output summary : String) : Dict :=
  [("applescript", .str script),
   ("prompt", .str prompt),
   ("output", .str output),
   ("summary", .str summary),
   ("handler_type", .str "applescript")]

/-- The dict returned by `handle` once all attempts are exhausted or the
user rejects a script (lines 330–337); `max_attempts` is 5 there. -/
def failureDict (prompt : String) : Dict :=
  [("applescript", .str "Failed to generate working script"),
   ("prompt", .str prompt),
   ("output", .str "Task could not be completed after multiple attempts"),
   ("summary", .str "Failed after 5 attempts"),
   ("handler_type", .str "applescript"),
   ("error", .bool true)]

/-- Result of `handle`: the returned dict, or an uncaught `EOFError` from a
console prompt. -/
inductive HandleResult where
  | ok (d : Dict)
  | eof
  deriving DecidableEq, Repr

/-- The `while attempt < max_attempts` body of `handle` (lines 281–326),
with `fuel` the number of attempts still allowed.  Generation failure (or a
falsy script) consumes the attempt; an un-approved script breaks out and
returns the failure dict; a verified-but-user-denied attempt or a
not-accomplished verification loops. -/
def handleLoop (w : World) (prompt context : String) :
    Nat → List String → HState → HandleResult × List String × HState
  | 0, inputs, s => (.ok (failureDict prompt), inputs, s)
  | fuel + 1, inputs, s =>
    let g := generateApplescript w prompt context s
    match g.1 with
    | none => handleLoop w prompt context fuel inputs g.2
    | some script =>
      if script = "" then handleLoop w prompt context fuel inputs g.2
      else
        let gr := getUserScriptApproval w prompt context script inputs g.2
        match gr.1 with
        | .approved approvedScript =>
          let er := executeApplescript w approvedScript gr.2.2
          let vr := verifyTaskCompletion w er.1 er.2
          if vr.1.accomplished then
            let cr := getUserTaskConfirmation gr.2.1 vr.2
            match cr.1 with
            | .confirmed =>
              (.ok (successDict prompt approvedScript er.1.output vr.1.summary), cr.2.1, cr.2.2)
            | .denied _ => handleLoop w prompt context fuel cr.2.1 cr.2.2
            | .eof => (.eof, cr.2.1, cr.2.2)
          else
            handleLoop w prompt context fuel gr.2.1 (recFailureReason vr.1.summary vr.2)
        | .rejected _ => (.ok (failureDict prompt), gr.2.1, gr.2.2)
        | .eof => (.eof, gr.2.1, gr.2.2)

/-- `AppleScriptHandler.handle` (lines 265–337): `max_attempts = 5`. -/
def handle (w : World) (prompt context : String) (inputs : List String) (s : HState) :
    HandleResult × List String × HState :=
  handleLoop w prompt context 5 inputs s

/-- `generateMarkdown` (lines 349–359). -/
def generateMarkdown (result : Dict) : String :=
  let prompt := pyStr (dgetD result "prompt" (.str "Unknown task"))
  let script := pyStr (dgetD result "applescript" (.str "No script"))
  let output := pyStr (dgetD result "output" (.str "No output"))
  let summary := pyStr (dgetD result "summary" (.str "No summary"))
  if truthy (dget result "error") then
    "Prompt: " ++ prompt ++ ". AppleScript execution failed: " ++ output
  else
    "Prompt: " ++ prompt ++ ". The following applescript was run: " ++ script ++
      " and produced the following output: " ++ output ++
      ", and the step was deemed accomplished. The task results were summarized as: " ++ summary

end AppleScript

/-! ## `subagents/research.py` — the web-search handler -/

namespace Research

/-- `handle` (research.py lines 16–60): perform the search through the
external service (`search n` is the outcome of the `n`-th search request;
`.error e` models the request raising with message `e`) and wrap the outcome
into a result dict.  The `except` branch returns a dict instead of raising,
so the function is total. -/
def handle (search : Nat → Except String String) (prompt _context : String) (n : Nat) :
    Dict × Nat :=
  match search n with
  | .ok results =>
    ([("prompt", .str prompt),
      ("response", .str results),
      ("handler_type", .str "web_search")], n + 1)
  | .error e =>
    ([("prompt", .str prompt),
      ("response", .str ("Error performing search: " ++ e)),
      ("handler_type", .str "web_search"),
      ("error", .bool true)], n + 1)

/-- `generateMarkdown` (research.py lines 62–77). -/
def generateMarkdown (result : Dict) : String :=
  let prompt := pyStr (dgetD result "prompt" (.str "Unknown query"))
  let response := pyStr (dgetD result "response" (.str "No response"))
  if truthy (dget result "error") then
    "The agent attempted to search for the answer to \"" ++ prompt ++
      "\" but encountered an error: " ++ response
  else
    "The agent searched for the answer to \"" ++ prompt ++
      "\". It found the following information: \"" ++ response ++ "\"."

end Research

/-! ## `master-agent.py` — the plan orchestrator -/

namespace MasterAgent

/-- `TaskType` (master-agent.py lines 32–36). -/
inductive TaskType where
  | browser
  | applescript
  | terminal
  | web_search
  deriving DecidableEq, Repr

/-- `Step` (lines 38–40). -/
structure Step where
  prompt : String
  task_classification : TaskType
  deriving DecidableEq, Repr

/-- The registered subagent modules (`handler_map`, lines 160–163). -/
inductive HandlerId where
  | research
  | applescript
  deriving DecidableEq, Repr

/-- `get_handler` (lines 158–165): only `web_search` and `applescript` have
handlers; `browser` and `terminal` map to `None`. -/
def getHandler : TaskType → Option HandlerId
  | .web_search => some .research
  | .applescript => some .applescript
  | .browser => none
  | .terminal => none

/-- The whole external world of a master-agent run: the search service and
the AppleScript handler's services. -/
structure MWorld where
  search : Nat → Except String String
  as : AppleScript.World

/-- Master-agent state: `self.context` (the structured result list),
`self.context_string`, the search-call cursor, the state of the module-level
`AppleScriptHandler` singleton (applescript.py lines 339–347, created once
and reused for every applescript step of the run), and the console input
lines. -/
structure MState where
  context : List Dict
  context_string : String
  searchCalls : Nat
  asState : AppleScript.HState
  inputs : List String

def initMState (inputs : List String) : MState :=
  ⟨[], "", 0, AppleScript.initState, inputs⟩

/-- Outcome of one `handler_module.handle(...)` call from the orchestrator's
point of view: a returned dict, or an exception (`exn`, reached when an
AppleScript console prompt hits end of input). -/
inductive CallRes where
  | ok (d : Dict)
  | exn
  deriving DecidableEq, Repr

/-- Dispatch of `handler_module.handle(step.prompt, self.context_string)`
(line 186) to the module picked by `get_handler`. -/
def callStep (w : MWorld) (hid : HandlerId) (prompt : String) (s : MState) :
    CallRes × MState :=
  match hid with
  | .research =>
    let r := Research.handle w.search prompt s.context_string s.searchCalls
    (.ok r.1, { s with searchCalls := r.2 })
  | .applescript =>
    match AppleScript.handle w.as prompt s.context_string s.inputs s.asState with
    | (.ok d, inputs1, as1) => (.ok d, { s with inputs := inputs1, asState := as1 })
    | (.eof, inputs1, as1) => (.exn, { s with inputs := inputs1, asState := as1 })

/-- `handler_module.generateMarkdown(result)` (line 192). -/
def genMarkdownFor : HandlerId → Dict → String
  | .research, d => Research.generateMarkdown d
  | .applescript, d => AppleScript.generateMarkdown d

/-- The `for i, step in enumerate(plan.steps, 1)` walk of `execute_steps`
(lines 167–199).  Returns the trace of handler invocations — `(i, true)` when
step `i`'s handler returned a result dict, `(i, false)` when it raised — next
to the final state.  A missing handler (line 180) breaks without invoking
anything; an exception (line 197) breaks after the invocation; otherwise the
result is appended to `self.context`, its markdown to `self.context_string`,
and the walk continues. -/
def executeStepsGo (w : MWorld) : List Step → Nat → MState → List (Nat × Bool) × MState
  | [], _, s => ([], s)
  | step :: rest, i, s =>
    match getHandler step.task_classification with
    | none => ([], s)
    | some hid =>
      match callStep w hid step.prompt s with
      | (.exn, s1) => ([(i, false)], s1)
      | (.ok d, s1) =>
        let md := genMarkdownFor hid d
        let s2 := { s1 with
            context := s1.context ++ [d],
            context_string := s1.context_string ++ "\n\n" ++ md }
        let r := executeStepsGo w rest (i + 1) s2
        ((i, true) :: r.1, r.2)

/-- `MasterAgent.execute_steps` (lines 167–199). -/
def executeSteps (w : MWorld) (plan : List Step) (s : MState) :
    List (Nat × Bool) × MState :=
  executeStepsGo w plan 1 s

/-- `get_user_approval` for the plan (lines 111–156), with `planOracle k` the
outcome of the `k`-th planner request of the run (request `0` being
`generate_plan`).  Returns `none` where the run terminates with exit code 1:
silent rejection calls `sys.exit(1)`, and an exhausted console raises
`EOFError`, caught by `run`'s `except Exception`.  On a regeneration error it
returns the current plan and continues (line 152). -/
def getUserApproval (planOracle : Nat → Except String (List Step)) :
    List Step → List String → Nat → Option (List Step × List String × Nat)
  | _, [], _ => none
  | plan, a :: rest, k =>
    let ans := pyNorm a
    if ans = "y" ∨ ans = "yes" then some (plan, rest, k)
    else if ans = "n" ∨ ans = "no" then
      match rest with
      | [] => none
      | fb :: rest2 =>
        if pyStrip fb ≠ "" then
          match planOracle k with
          | .ok newPlan => getUserApproval planOracle newPlan rest2 (k + 1)
          | .error _ => some (plan, rest2, k + 1)
        else none
    else getUserApproval planOracle plan rest k

/-- `MasterAgent.run` (lines 232–259), as the process exit code of a run that
is not interrupted: `generate_plan` exits 1 when the planner raises
(line 95); plan rejection without feedback exits 1; once the plan is
approved, `execute_steps` swallows every step failure (its `except` clause
only breaks the walk) and `generate_final_inference` catches its own
exceptions, so the run always falls through to a normal exit 0. -/
def run (w : MWorld) (planOracle : Nat → Except String (List Step))
    (inputs : List String) : Nat :=
  match planOracle 0 with
  | .error _ => 1
  | .ok plan =>
    match getUserApproval planOracle plan inputs 1 with
    | none => 1
    | some (approvedPlan, inputs1, _) =>
      let _ := executeSteps w approvedPlan (initMState inputs1)
      0

end MasterAgent

/-! ## `agent.py` — the single-step legacy path -/

namespace Agent

/-- `StepVerification` (agent.py lines 54–56). -/
structure StepVerification where
  success : Bool
  feedback : String
  deriving DecidableEq, Repr

/-- External services of the legacy agent: the Anthropic script generator
(`gen n = none` models the request raising), the `osascript` process runner,
and the OpenAI verifier (`verify n = .error e` models it raising). -/
structure World where
  gen : Nat → Option String
  run : Nat → AppleScript.RunOutcome
  verify : Nat → Except String StepVerification

/-- Legacy agent state: the oracle cursors and `self.execution_history`
(only appended to by `_execute_script` on normal completion). -/
structure AState where
  genCalls : Nat
  runCalls : Nat
  verifyCalls : Nat
  execution_history : List (String × AppleScript.ExecResult)
  deriving DecidableEq, Repr

def initAState : AState :=
  ⟨0, 0, 0, []⟩

/-- Python `s.split('\n')` on character lists. -/
def splitNl : List Char → List (List Char)
  | [] => [[]]
  | c :: cs =>
    let r := splitNl cs
    if c == '\n' then [] :: r
    else
      match r with
      | [] => [[c]]
      | l :: ls => (c :: l) :: ls

/-- Python `'\n'.join(lines)` on character lists. -/
def joinNl : List (List Char) → List Char
  | [] => []
  | [l] => l
  | l :: ls => l ++ '\n' :: joinNl ls

/-- The post-processing applied to every Anthropic response in agent.py
(lines 309–313 and 349–352): `strip()`, then if the text starts with a code
fence, keep `'\n'.join(script.split('\n')[1:-1])`. -/
def cleanScript (raw : String) : String :=
  let s := pyStrip raw
  if leadsWith "```".data s.data then ⟨joinNl (((splitNl s.data).drop 1).dropLast)⟩
  else s

/-- `_generate_applescript` (agent.py lines 284–318): the request also
carries the step, running context and all previously attempted scripts; the
oracle is indexed by the generation-call count.  Returns `none` when the
request raises. -/
def generateApplescript (w : World) (n : Nat) : Option String × Nat :=
  match w.gen n with
  | some raw => (some (cleanScript raw), n + 1)
  | none => (none, n + 1)

/-- Result of `_get_user_approval` (a bare `bool` in the source — note it
does **not** return the possibly-regenerated script). -/
inductive GateRes where
  | approved
  | rejected
  | eof
  deriving DecidableEq, Repr

/-- `_get_user_approval` (lines 320–362): on reject-with-feedback it
regenerates through the Anthropic service and loops on the regenerated
script, but only the boolean verdict escapes to the caller; a regeneration
error or empty feedback returns `False`. -/
def getUserApproval (w : World) (script : String) :
    List String → AState → GateRes × List String × AState
  | [], s => (.eof, [], s)
  | a :: rest, s =>
    let ans := pyNorm a
    if ans = "y" ∨ ans = "yes" then (.approved, rest, s)
    else if ans = "n" ∨ ans = "no" then
      match rest with
      | [] => (.eof, [], s)
      | fb :: rest2 =>
        if pyStrip fb ≠ "" then
          match w.gen s.genCalls with
          | some raw =>
            getUserApproval w (cleanScript raw) rest2 { s with genCalls := s.genCalls + 1 }
          | none => (.rejected, rest2, { s with genCalls := s.genCalls + 1 })
        else (.rejected, rest2, s)
    else getUserApproval w script rest s

/-- `_execute_script` (lines 364–397): identical normalization to the
subagent executor, except that `self.execution_history` is appended only on
normal completion (the timeout/exception branches return before the
append). -/
def executeScript (w : World) (script : String) (s : AState) :
    AppleScript.ExecResult × AState :=
  let s0 := { s with runCalls := s.runCalls + 1 }
  match w.run s.runCalls with
  | .completed rc stdout stderr =>
    let r : AppleScript.ExecResult := ⟨decide (rc = 0), stdout ++ stderr, rc⟩
    (r, { s0 with execution_history := s0.execution_history ++ [(script, r)] })
  | .timedOut => (⟨false, "Script execution timed out", -1⟩, s0)
  | .raised e => (⟨false, e, -1⟩, s0)

/-- `_verify_step_completion` (lines 399–434): same graceful degradation as
the subagent verifier. -/
def verifyStepCompletion (w : World) (execResult : AppleScript.ExecResult) (s : AState) :
    StepVerification × AState :=
  let s0 := { s with verifyCalls := s.verifyCalls + 1 }
  match w.verify s.verifyCalls with
  | .ok v => (v, s0)
  | .error _ =>
    (⟨execResult.success, "Verification failed, using execution result: " ++ execResult.output⟩,
     s0)

/-- One attempted script recorded into the step's local `attempted_scripts`
list (lines 266–270). -/
structure AttemptEntry where
  script : String
  output : String
  success : Bool
  deriving DecidableEq, Repr

/-- Terminal result of `_execute_applescript_step` for one step. -/
inductive StepRes where
  | succeeded
  | failed
  | eof
  deriving DecidableEq, Repr

/-- The `for attempt in range(1, 4)` body of `_execute_applescript_step`
(lines 247–282), with `fuel` the attempts left.  A generation failure or an
un-approved script consumes the attempt (`continue`); after an approved
execution the attempt is recorded and verified, and a failed verification
extends the context and retries.  Note the executed script is the one bound
before the approval gate — the gate's internal regenerations never reach
execution. -/
def execStepLoop (w : World) (step : String) :
    Nat → Nat → String → List AttemptEntry → List String → AState →
      StepRes × List String × AState
  | 0, _, _, _, inputs, s => (.failed, inputs, s)
  | fuel + 1, attemptNum, context, attempted, inputs, s =>
    let g := generateApplescript w s.genCalls
    let s1 := { s with genCalls := g.2 }
    match g.1 with
    | none => execStepLoop w step fuel (attemptNum + 1) context attempted inputs s1
    | some sc =>
      if sc = "" then execStepLoop w step fuel (attemptNum + 1) context attempted inputs s1
      else
        match getUserApproval w sc inputs s1 with
        | (.eof, inputs1, s2) => (.eof, inputs1, s2)
        | (.rejected, inputs1, s2) =>
          execStepLoop w step fuel (attemptNum + 1) context attempted inputs1 s2
        | (.approved, inputs1, s2) =>
          let er := executeScript w sc s2
          let attempted1 := attempted ++ [⟨sc, er.1.output, er.1.success⟩]
          let vr := verifyStepCompletion w er.1 er.2
          if vr.1.success then (.succeeded, inputs1, vr.2)
          else
            execStepLoop w step fuel (attemptNum + 1)
              (context ++ "\n\nPrevious attempt " ++ toString attemptNum ++ " failed: " ++
                vr.1.feedback)
              attempted1 inputs1 vr.2

/-- `_execute_applescript_step` (lines 247–282): 3 attempts max, starting
from the context `"Step {step_num}: {step}"`. -/
def execApplescriptStep (w : World) (step : String) (stepNum : Nat)
    (inputs : List String) (s : AState) : StepRes × List String × AState :=
  execStepLoop w step 3 1 ("Step " ++ toString stepNum ++ ": " ++ step) [] inputs s

/-- Result of `applescript_handler`: the count of successful steps (the
handler returns `successful_steps == len(steps)`), or an uncaught exception
from a console prompt. -/
inductive HandlerRes where
  | done (successful : Nat)
  | exn
  deriving DecidableEq, Repr

/-- The step walk of `applescript_handler` (lines 224–245): sequential, and
`break` on the first step that fails after its 3 attempts. -/
def applescriptHandlerGo (w : World) :
    List String → Nat → Nat → List String → AState → HandlerRes × List String × AState
  | [], _, successful, inputs, s => (.done successful, inputs, s)
  | step :: rest, num, successful, inputs, s =>
    match execApplescriptStep w step num inputs s with
    | (.succeeded, inputs1, s1) => applescriptHandlerGo w rest (num + 1) (successful + 1) inputs1 s1
    | (.failed, inputs1, s1) => (.done successful, inputs1, s1)
    | (.eof, inputs1, s1) => (.exn, inputs1, s1)

/-- `applescript_handler` (lines 224–245). -/
def applescriptHandler (w : World) (steps : List String) (inputs : List String)
    (s : AState) : HandlerRes × List String × AState :=
  applescriptHandlerGo w steps 1 0 inputs s

/-- `Agent.run` (lines 692–720) along the applescript route, as the process
exit code of an uninterrupted run: a classification error exits 1
(`classify_task`, line 116); otherwise `route_to_handler` dispatches to
`applescript_handler` and the process exits `0 if success else 1`, where
`success` is `successful_steps == len(steps)`; an uncaught console
exception lands in the outer `except` and exits 1
(`generate_final_summary` catches its own errors and cannot change the
code). -/
def run (w : World) (classifyOracle : Except String (List String))
    (inputs : List String) : Nat :=
  match classifyOracle with
  | .error _ => 1
  | .ok steps =>
    match applescriptHandler w steps inputs initAState with
    | (.exn, _, _) => 1
    | (.done successful, _, _) => if successful = steps.length then 0 else 1

end Agent

/-! ## Helper lemmas shared across the verification -/

theorem pyNorm_y : pyNorm "y" = "y" := rfl

theorem pyNorm_n : pyNorm "n" = "n" := rfl

theorem pyStrip_empty : pyStrip "" = "" := rfl

/-- The subagent approval gate accepts immediately on a `"y"` answer. -/
theorem gate_approve (w : AppleScript.World) (p c cur : String) (rest : List String)
    (s : AppleScript.HState) :
    AppleScript.getUserScriptApproval w p c cur ("y" :: rest) s =
      (.approved cur, rest, AppleScript.recApproval true s) := by
  simp [AppleScript.getUserScriptApproval, pyNorm_y]

/-- The subagent approval gate returns a silent rejection at once on `"n"`
followed by empty feedback, without calling the generation service. -/
theorem gate_silent_reject (w : AppleScript.World) (p c cur : String) (rest : List String)
    (s : AppleScript.HState) :
    AppleScript.getUserScriptApproval w p c cur ("n" :: "" :: rest) s =
      (.rejected none, rest,
        AppleScript.recFeedback "No specific feedback provided" (AppleScript.recApproval false s)) := by
  simp [AppleScript.getUserScriptApproval, pyNorm_n, pyStrip_empty]

/-- The legacy approval gate accepts immediately on a `"y"` answer. -/
theorem agent_gate_approve (w : Agent.World) (sc : String) (rest : List String)
    (s : Agent.AState) :
    Agent.getUserApproval w sc ("y" :: rest) s = (.approved, rest, s) := by
  unfold Agent.getUserApproval
  simp [pyNorm_y]

/-- The legacy approval gate rejects at once on `"n"` plus empty feedback. -/
theorem agent_gate_silent (w : Agent.World) (sc : String) (rest : List String)
    (s : Agent.AState) :
    Agent.getUserApproval w sc ("n" :: "" :: rest) s = (.rejected, rest, s) := by
  unfold Agent.getUserApproval
  simp [pyNorm_n, pyStrip_empty]

/-! ## C4 — graceful verifier degradation -/

/-- C4: if the verification service raises, both `_verify_task_completion`
(subagent path) and `_verify_step_completion` (legacy path) return a
verdict whose accomplished flag equals the execution outcome's success flag
— for either value of that flag, since `r` is arbitrary — together with the
rationale string `"Verification failed, using execution result: …"`; the
verification failure is absorbed, never aborting the step. -/
theorem c4_verifier_degradation
    (w : AppleScript.World) (s : AppleScript.HState) (e : String)
    (w2 : Agent.World) (s2 : Agent.AState) (e2 : String)
    (r : AppleScript.ExecResult)
    (h : w.verify s.verifyCalls = .error e)
    (h2 : w2.verify s2.verifyCalls = .error e2) :
    (AppleScript.verifyTaskCompletion w r s).1 =
      ⟨r.success, "Verification failed, using execution result: " ++ r.output⟩ ∧
    (Agent.verifyStepCompletion w2 r s2).1 =
      ⟨r.success, "Verification failed, using execution result: " ++ r.output⟩ := by
  constructor
  · simp [AppleScript.verifyTaskCompletion, h]
  · simp [Agent.verifyStepCompletion, h2]

/-- C4 witness: a raising verifier at a concrete failed execution outcome. -/
theorem c4_verifier_degradation_witness :
    (AppleScript.verifyTaskCompletion
        ⟨fun _ => none, fun _ => .timedOut, fun _ => .error "service down"⟩
        ⟨false, "ran out", 1⟩ AppleScript.initState).1 =
      ⟨false, "Verification failed, using execution result: " ++ "ran out"⟩ ∧
    (Agent.verifyStepCompletion
        ⟨fun _ => none, fun _ => .timedOut, fun _ => .error "service down"⟩
        ⟨false, "ran out", 1⟩ Agent.initAState).1 =
      ⟨false, "Verification failed, using execution result: " ++ "ran out"⟩ :=
  c4_verifier_degradation
    ⟨fun _ => none, fun _ => .timedOut, fun _ => .error "service down"⟩
    AppleScript.initState "service down"
    ⟨fun _ => none, fun _ => .timedOut, fun _ => .error "service down"⟩
    Agent.initAState "service down"
    ⟨false, "ran out", 1⟩ rfl rfl

/-! ## C5 — executor normalization -/

/-- C5 (counterexample): on a timeout the executor's output is the string
`"Script execution timed out"`, not the claimed literal `"timed out"`
(the claimed value is merely a substring of the actual one). -/
theorem c5_counterexample :
    (AppleScript.executeApplescript
        ⟨fun _ => some "s", fun _ => .timedOut, fun _ => .error "x"⟩
        "tell application" AppleScript.initState).1.output = "Script execution timed out" ∧
    (AppleScript.executeApplescript
        ⟨fun _ => some "s", fun _ => .timedOut, fun _ => .error "x"⟩
        "tell application" AppleScript.initState).1.output ≠ "timed out" := by
  exact ⟨rfl, by decide⟩

/-- C5 (amended): both `_execute_applescript` (subagent) and
`_execute_script` (legacy) are total — every process outcome, including the
runner raising, is normalized to a result record — with `success = true`
exactly when the interpreter exit code is `0`; the 30-second timeout yields
the sentinel exit code `-1` and the output `"Script execution timed out"`
(which states the timeout, but is not the literal `"timed out"`); a launch
exception yields `success = false`, the exception text and exit code `-1`. -/
theorem c5_executor_normalizes
    (w : AppleScript.World) (s : AppleScript.HState) (script : String)
    (w2 : Agent.World) (s2 : Agent.AState) (script2 : String) :
    (∀ rc out err, w.run s.runCalls = .completed rc out err →
      (AppleScript.executeApplescript w script s).1 = ⟨decide (rc = 0), out ++ err, rc⟩ ∧
      ((AppleScript.executeApplescript w script s).1.success = true ↔ rc = 0)) ∧
    (w.run s.runCalls = .timedOut →
      (AppleScript.executeApplescript w script s).1 =
        ⟨false, "Script execution timed out", -1⟩) ∧
    (∀ e, w.run s.runCalls = .raised e →
      (AppleScript.executeApplescript w script s).1 = ⟨false, e, -1⟩) ∧
    (∀ rc out err, w2.run s2.runCalls = .completed rc out err →
      (Agent.executeScript w2 script2 s2).1 = ⟨decide (rc = 0), out ++ err, rc⟩ ∧
      ((Agent.executeScript w2 script2 s2).1.success = true ↔ rc = 0)) ∧
    (w2.run s2.runCalls = .timedOut →
      (Agent.executeScript w2 script2 s2).1 = ⟨false, "Script execution timed out", -1⟩) ∧
    (∀ e, w2.run s2.runCalls = .raised e →
      (Agent.executeScript w2 script2 s2).1 = ⟨false, e, -1⟩) := by
  refine ⟨?_, ?_, ?_, ?_, ?_, ?_⟩
  · intro rc out err h
    constructor
    · simp [AppleScript.executeApplescript, h]
    · simp [AppleScript.executeApplescript, h]
  · intro h
    simp [AppleScript.executeApplescript, h]
  · intro e h
    simp [AppleScript.executeApplescript, h]
  · intro rc out err h
    constructor
    · simp [Agent.executeScript, h]
    · simp [Agent.executeScript, h]
  · intro h
    simp [Agent.executeScript, h]
  · intro e h
    simp [Agent.executeScript, h]

/-- C5 witness: the timeout branch of the subagent executor, and a nonzero
exit code through the legacy executor, at concrete worlds. -/
theorem c5_executor_normalizes_witness :
    (AppleScript.executeApplescript
        ⟨fun _ => none, fun _ => .timedOut, fun _ => .error "x"⟩
        "s" AppleScript.initState).1 = ⟨false, "Script execution timed out", -1⟩ ∧
    (Agent.executeScript
        ⟨fun _ => none, fun _ => .completed 2 "o" "e", fun _ => .error "x"⟩
        "s" Agent.initAState).1 = ⟨decide ((2 : Int) = 0), "o" ++ "e", 2⟩ :=
  ⟨(c5_executor_normalizes
      ⟨fun _ => none, fun _ => .timedOut, fun _ => .error "x"⟩ AppleScript.initState "s"
      ⟨fun _ => none, fun _ => .completed 2 "o" "e", fun _ => .error "x"⟩ Agent.initAState
      "s").2.1 rfl,
   ((c5_executor_normalizes
      ⟨fun _ => none, fun _ => .timedOut, fun _ => .error "x"⟩ AppleScript.initState "s"
      ⟨fun _ => none, fun _ => .completed 2 "o" "e", fun _ => .error "x"⟩ Agent.initAState
      "s").2.2.2.1 2 "o" "e" rfl).1⟩

/-! ## C10 — the web-search handler never raises -/

/-- C10: for every prompt, context and search-service behaviour the
web-search `handle` returns a result dict (it is total) keeping the keys
`prompt`, `response` and `handler_type`; when the service raises, the dict
additionally carries `error = True`, its `response` embeds the exception
text, and `generateMarkdown` renders it as the error-description string, so
a failed search becomes an ordinary step result. -/
theorem c10_research_never_raises
    (search : Nat → Except String String) (prompt context : String) (n : Nat) :
    dget (Research.handle search prompt context n).1 "prompt" = some (.str prompt) ∧
    dget (Research.handle search prompt context n).1 "handler_type" =
      some (.str "web_search") ∧
    (∃ resp, dget (Research.handle search prompt context n).1 "response" =
      some (.str resp)) ∧
    (∀ e, search n = .error e →
      dget (Research.handle search prompt context n).1 "error" = some (.bool true) ∧
      dget (Research.handle search prompt context n).1 "response" =
        some (.str ("Error performing search: " ++ e)) ∧
      Research.generateMarkdown (Research.handle search prompt context n).1 =
        "The agent attempted to search for the answer to \"" ++ prompt ++
          "\" but encountered an error: " ++ ("Error performing search: " ++ e)) := by
  cases h : search n with
  | ok results =>
    refine ⟨?_, ?_, ⟨results, ?_⟩, ?_⟩ <;>
      simp [Research.handle, Research.generateMarkdown, dget, dgetD, truthy, pyStr, h]
  | error e =>
    refine ⟨?_, ?_, ⟨"Error performing search: " ++ e, ?_⟩, ?_⟩ <;>
      simp [Research.handle, Research.generateMarkdown, dget, dgetD, truthy, pyStr, h]

/-- C10 witness: a concrete raising search service. -/
theorem c10_research_never_raises_witness :
    dget (Research.handle (fun _ => .error "boom") "q" "" 0).1 "error" =
      some (.bool true) ∧
    Research.generateMarkdown (Research.handle (fun _ => .error "boom") "q" "" 0).1 =
      "The agent attempted to search for the answer to \"" ++ "q" ++
        "\" but encountered an error: " ++ ("Error performing search: " ++ "boom") :=
  ⟨((c10_research_never_raises (fun _ => .error "boom") "q" "" 0).2.2.2 "boom" rfl).1,
   ((c10_research_never_raises (fun _ => .error "boom") "q" "" 0).2.2.2 "boom" rfl).2.2⟩

/-! ## C6 — the approval gate's regeneration loop -/

/-- The world of the C6 failing input: the generator produces `"script A"`
on its first call and `"script B"` on every later (regeneration) call; the
runner and verifier always succeed. -/
def c6World : Agent.World :=
  ⟨fun n => some (if n = 0 then "script A" else "script B"),
   fun _ => .completed 0 "out" "",
   fun _ => .ok ⟨true, "ok"⟩⟩

/-- C6: evaluation of the legacy path at the failing input — the scripted
sequence reject-with-feedback then accept (`K = 1`).  The gate does invoke
the Generator exactly once more (`genCalls = 2`) and the user approves the
regenerated `"script B"`, but `_get_user_approval` returns only a boolean,
so `_execute_applescript_step` executes the original `"script A"`: the
approved `(K+1)`-th proposal is discarded, contradicting the claim (and the
declared approval workflow) on this input. -/
theorem c6_legacy_gate_discards_revision :
    (Agent.execApplescriptStep c6World "make a note" 1
        ["n", "make it better", "y"] Agent.initAState).1 = .succeeded ∧
    ((Agent.execApplescriptStep c6World "make a note" 1
        ["n", "make it better", "y"] Agent.initAState).2.2).genCalls = 2 ∧
    ((Agent.execApplescriptStep c6World "make a note" 1
        ["n", "make it better", "y"] Agent.initAState).2.2).execution_history.map
        Prod.fst = ["script A"] ∧
    Agent.cleanScript "script B" = "script B" ∧ "script A" ≠ "script B" := by
  refine ⟨rfl, rfl, rfl, rfl, by decide⟩

/-! ## C3 — silent rejection -/

/-- C3 (counterexample): a silent rejection on the very first attempt, with
the full cap of 5 attempts still available, makes `handle` resolve the
failure dict immediately — the generator was invoked exactly once, i.e. the
controller did not retry from `Generating` although attempts remained. -/
theorem c3_counterexample :
    (AppleScript.handle
        ⟨fun _ => some "tell app", fun _ => .completed 0 "" "", fun _ => .ok ⟨true, "ok"⟩⟩
        "open notes" "" ["n", ""] AppleScript.initState).1 =
      .ok (AppleScript.failureDict "open notes") ∧
    ((AppleScript.handle
        ⟨fun _ => some "tell app", fun _ => .completed 0 "" "", fun _ => .ok ⟨true, "ok"⟩⟩
        "open notes" "" ["n", ""] AppleScript.initState).2.2).genCalls = 1 :=
  ⟨rfl, rfl⟩

/-- C3 (amended): on a silent rejection the Gate returns the rejection
immediately without invoking the Generator again (i); in the orchestrator
path the controller then abandons the step entirely — it breaks out of the
attempt loop and returns the failure dict after the single generation,
regardless of the attempts remaining under the cap (ii); only the legacy
path counts the rejection as a failed attempt and retries from generation,
resolving failure once its cap of 3 is reached (iii). -/
theorem c3_silent_rejection
    (w : AppleScript.World) (prompt context g0 : String) (rest : List String)
    (s : AppleScript.HState)
    (hg : w.gen s.genCalls = some g0) (hne : g0 ≠ "")
    (w2 : Agent.World) (g2 : Nat → String) (step : String) (num : Nat)
    (s2 : Agent.AState)
    (hg2 : ∀ n, w2.gen n = some (g2 n))
    (h2ne : ∀ n, Agent.cleanScript (g2 n) ≠ "") :
    AppleScript.getUserScriptApproval w prompt context g0 ("n" :: "" :: rest) s =
      (.rejected none, rest,
        AppleScript.recFeedback "No specific feedback provided"
          (AppleScript.recApproval false s)) ∧
    (AppleScript.handle w prompt context ("n" :: "" :: rest) s).1 =
      .ok (AppleScript.failureDict prompt) ∧
    ((AppleScript.handle w prompt context ("n" :: "" :: rest) s).2.2).genCalls =
      s.genCalls + 1 ∧
    (Agent.execApplescriptStep w2 step num ["n", "", "n", "", "n", ""] s2).1 = .failed ∧
    ((Agent.execApplescriptStep w2 step num ["n", "", "n", "", "n", ""] s2).2.2).genCalls =
      s2.genCalls + 3 := by
  refine ⟨gate_silent_reject w prompt context g0 rest s, ?_, ?_, ?_, ?_⟩
  · simp [AppleScript.handle, AppleScript.handleLoop, AppleScript.generateApplescript, hg,
      hne, gate_silent_reject]
  · simp [AppleScript.handle, AppleScript.handleLoop, AppleScript.generateApplescript, hg,
      hne, gate_silent_reject, AppleScript.recFeedback, AppleScript.recApproval]
  · simp [Agent.execApplescriptStep, Agent.execStepLoop, Agent.generateApplescript, hg2,
      h2ne, agent_gate_silent]
  · simp [Agent.execApplescriptStep, Agent.execStepLoop, Agent.generateApplescript, hg2,
      h2ne, agent_gate_silent]

/-- C3 witness: concrete always-generating worlds, silent rejections at the
console. -/
theorem c3_silent_rejection_witness :
    AppleScript.getUserScriptApproval
        ⟨fun _ => some "tell app", fun _ => .timedOut, fun _ => .error "x"⟩
        "p" "c" "tell app" ("n" :: "" :: []) AppleScript.initState =
      (.rejected none, [],
        AppleScript.recFeedback "No specific feedback provided"
          (AppleScript.recApproval false AppleScript.initState)) ∧
    (AppleScript.handle
        ⟨fun _ => some "tell app", fun _ => .timedOut, fun _ => .error "x"⟩
        "p" "c" ("n" :: "" :: []) AppleScript.initState).1 =
      .ok (AppleScript.failureDict "p") ∧
    ((AppleScript.handle
        ⟨fun _ => some "tell app", fun _ => .timedOut, fun _ => .error "x"⟩
        "p" "c" ("n" :: "" :: []) AppleScript.initState).2.2).genCalls =
      AppleScript.initState.genCalls + 1 ∧
    (Agent.execApplescriptStep
        ⟨fun _ => some "do it", fun _ => .timedOut, fun _ => .error "x"⟩
        "s" 1 ["n", "", "n", "", "n", ""] Agent.initAState).1 = .failed ∧
    ((Agent.execApplescriptStep
        ⟨fun _ => some "do it", fun _ => .timedOut, fun _ => .error "x"⟩
        "s" 1 ["n", "", "n", "", "n", ""] Agent.initAState).2.2).genCalls =
      Agent.initAState.genCalls + 3 :=
  c3_silent_rejection
    ⟨fun _ => some "tell app", fun _ => .timedOut, fun _ => .error "x"⟩
    "p" "c" "tell app" [] AppleScript.initState rfl (by decide)
    ⟨fun _ => some "do it", fun _ => .timedOut, fun _ => .error "x"⟩
    (fun _ => "do it") "s" 1 Agent.initAState (fun _ => rfl)
    (fun _ => by show Agent.cleanScript "do it" ≠ ""; decide)

/-! ## C2 — the attempt cap -/

/-- Whether a process outcome counts as a successful execution (exit 0). -/
def runSuccess : AppleScript.RunOutcome → Bool
  | .completed rc _ _ => decide (rc = 0)
  | .timedOut => false
  | .raised _ => false

/-- One always-failing attempt after another: with a generator that always
produces a nonempty script, a runner that never exits 0 and a verifier that
always answers not-accomplished, `handleLoop` with `k` attempts of fuel and
`k` scripted approvals consumes all `k` attempts — one generation, one
execution and one verification each — and resolves the failure dict. -/
theorem handleLoop_allFail
    (w : AppleScript.World) (prompt context : String) (g vs : Nat → String)
    (hg : ∀ n, w.gen n = some (g n)) (hgne : ∀ n, g n ≠ "")
    (hrun : ∀ n, runSuccess (w.run n) = false)
    (hver : ∀ n, w.verify n = .ok ⟨false, vs n⟩) :
    ∀ (k : Nat) (s : AppleScript.HState),
      (AppleScript.handleLoop w prompt context k (List.replicate k "y") s).1 =
        .ok (AppleScript.failureDict prompt) ∧
      (AppleScript.handleLoop w prompt context k (List.replicate k "y") s).2.1 = [] ∧
      ((AppleScript.handleLoop w prompt context k (List.replicate k "y") s).2.2).genCalls =
        s.genCalls + k ∧
      ((AppleScript.handleLoop w prompt context k (List.replicate k "y") s).2.2).runCalls =
        s.runCalls + k ∧
      ((AppleScript.handleLoop w prompt context k (List.replicate k "y") s).2.2).verifyCalls =
        s.verifyCalls + k := by
  intro k
  induction k with
  | zero =>
    intro s
    simp [AppleScript.handleLoop]
  | succ k ih =>
    intro s
    rw [List.replicate_succ]
    have hv := hver s.verifyCalls
    cases hr : w.run s.runCalls with
    | completed rc out err =>
      have hrc : decide (rc = 0) = false := by
        have h0 := hrun s.runCalls
        rw [hr] at h0
        simpa [runSuccess] using h0
      refine ⟨?_, ?_, ?_, ?_, ?_⟩ <;>
        simp [AppleScript.handleLoop, AppleScript.generateApplescript, hg, hgne,
          gate_approve, AppleScript.executeApplescript, hr, hrc,
          AppleScript.verifyTaskCompletion, hv, ih, AppleScript.recApproval,
          AppleScript.recFailureReason, AppleScript.recExec,
          AppleScript.recAssessment] <;>
        omega
    | timedOut =>
      refine ⟨?_, ?_, ?_, ?_, ?_⟩ <;>
        simp [AppleScript.handleLoop, AppleScript.generateApplescript, hg, hgne,
          gate_approve, AppleScript.executeApplescript, hr,
          AppleScript.verifyTaskCompletion, hv, ih, AppleScript.recApproval,
          AppleScript.recFailureReason, AppleScript.recExec,
          AppleScript.recAssessment] <;>
        omega
    | raised e =>
      refine ⟨?_, ?_, ?_, ?_, ?_⟩ <;>
        simp [AppleScript.handleLoop, AppleScript.generateApplescript, hg, hgne,
          gate_approve, AppleScript.executeApplescript, hr,
          AppleScript.verifyTaskCompletion, hv, ih, AppleScript.recApproval,
          AppleScript.recFailureReason, AppleScript.recExec,
          AppleScript.recAssessment] <;>
        omega

/-- The legacy analogue: `k` attempts of fuel, `k` scripted approvals, a
never-succeeding runner and a never-satisfied verifier make `execStepLoop`
fail after exactly `k` generations, executions and verifications. -/
theorem execStepLoop_allFail
    (w2 : Agent.World) (step : String) (g2 fb2 : Nat → String)
    (hg2 : ∀ n, w2.gen n = some (g2 n))
    (h2ne : ∀ n, Agent.cleanScript (g2 n) ≠ "")
    (hrun2 : ∀ n, runSuccess (w2.run n) = false)
    (hver2 : ∀ n, w2.verify n = .ok ⟨false, fb2 n⟩) :
    ∀ (k attemptNum : Nat) (context : String) (attempted : List Agent.AttemptEntry)
      (s : Agent.AState),
      (Agent.execStepLoop w2 step k attemptNum context attempted
          (List.replicate k "y") s).1 = .failed ∧
      (Agent.execStepLoop w2 step k attemptNum context attempted
          (List.replicate k "y") s).2.1 = [] ∧
      ((Agent.execStepLoop w2 step k attemptNum context attempted
          (List.replicate k "y") s).2.2).genCalls = s.genCalls + k ∧
      ((Agent.execStepLoop w2 step k attemptNum context attempted
          (List.replicate k "y") s).2.2).runCalls = s.runCalls + k ∧
      ((Agent.execStepLoop w2 step k attemptNum context attempted
          (List.replicate k "y") s).2.2).verifyCalls = s.verifyCalls + k := by
  intro k
  induction k with
  | zero =>
    intro attemptNum context attempted s
    simp [Agent.execStepLoop]
  | succ k ih =>
    intro attemptNum context attempted s
    rw [List.replicate_succ]
    have hv := hver2 s.verifyCalls
    cases hr : w2.run s.runCalls with
    | completed rc out err =>
      have hrc : decide (rc = 0) = false := by
        have h0 := hrun2 s.runCalls
        rw [hr] at h0
        simpa [runSuccess] using h0
      refine ⟨?_, ?_, ?_, ?_, ?_⟩ <;>
        simp [Agent.execStepLoop, Agent.generateApplescript, hg2, h2ne,
          agent_gate_approve, Agent.executeScript, hr, hrc,
          Agent.verifyStepCompletion, hv, ih] <;>
        omega
    | timedOut =>
      refine ⟨?_, ?_, ?_, ?_, ?_⟩ <;>
        simp [Agent.execStepLoop, Agent.generateApplescript, hg2, h2ne,
          agent_gate_approve, Agent.executeScript, hr,
          Agent.verifyStepCompletion, hv, ih] <;>
        omega
    | raised e =>
      refine ⟨?_, ?_, ?_, ?_, ?_⟩ <;>
        simp [Agent.execStepLoop, Agent.generateApplescript, hg2, h2ne,
          agent_gate_approve, Agent.executeScript, hr,
          Agent.verifyStepCompletion, hv, ih] <;>
        omega

/-- C2: for a step whose executor never succeeds and whose verifier always
answers not-accomplished, with every proposed script approved, the
orchestrator-path controller (`AppleScriptHandler.handle`) performs exactly
5 generate→approve→execute→verify attempts and returns the failure dict,
and the legacy-path controller (`_execute_applescript_step`) performs
exactly 3 such attempts and resolves failure — the generation, execution
and verification call counters each advance by exactly the cap. -/
theorem c2_attempt_cap
    (w : AppleScript.World) (prompt context : String) (g vs : Nat → String)
    (s : AppleScript.HState)
    (hg : ∀ n, w.gen n = some (g n)) (hgne : ∀ n, g n ≠ "")
    (hrun : ∀ n, runSuccess (w.run n) = false)
    (hver : ∀ n, w.verify n = .ok ⟨false, vs n⟩)
    (w2 : Agent.World) (step : String) (num : Nat) (g2 fb2 : Nat → String)
    (s2 : Agent.AState)
    (hg2 : ∀ n, w2.gen n = some (g2 n))
    (h2ne : ∀ n, Agent.cleanScript (g2 n) ≠ "")
    (hrun2 : ∀ n, runSuccess (w2.run n) = false)
    (hver2 : ∀ n, w2.verify n = .ok ⟨false, fb2 n⟩) :
    (AppleScript.handle w prompt context (List.replicate 5 "y") s).1 =
      .ok (AppleScript.failureDict prompt) ∧
    ((AppleScript.handle w prompt context (List.replicate 5 "y") s).2.2).genCalls =
      s.genCalls + 5 ∧
    ((AppleScript.handle w prompt context (List.replicate 5 "y") s).2.2).runCalls =
      s.runCalls + 5 ∧
    ((AppleScript.handle w prompt context (List.replicate 5 "y") s).2.2).verifyCalls =
      s.verifyCalls + 5 ∧
    (Agent.execApplescriptStep w2 step num (List.replicate 3 "y") s2).1 = .failed ∧
    ((Agent.execApplescriptStep w2 step num (List.replicate 3 "y") s2).2.2).genCalls =
      s2.genCalls + 3 ∧
    ((Agent.execApplescriptStep w2 step num (List.replicate 3 "y") s2).2.2).runCalls =
      s2.runCalls + 3 ∧
    ((Agent.execApplescriptStep w2 step num (List.replicate 3 "y") s2).2.2).verifyCalls =
      s2.verifyCalls + 3 := by
  obtain ⟨a1, _, a3, a4, a5⟩ := handleLoop_allFail w prompt context g vs hg hgne hrun hver 5 s
  obtain ⟨b1, _, b3, b4, b5⟩ := execStepLoop_allFail w2 step g2 fb2 hg2 h2ne hrun2 hver2 3 num
    ("Step " ++ toString num ++ ": " ++ step) [] s2
  exact ⟨a1, a3, a4, a5, b1, b3, b4, b5⟩

/-- C2 witness: concrete always-failing worlds with scripted approvals. -/
theorem c2_attempt_cap_witness :
    (AppleScript.handle
        ⟨fun _ => some "tell app", fun _ => .completed 1 "" "err", fun _ => .ok ⟨false, "not done"⟩⟩
        "p" "c" (List.replicate 5 "y") AppleScript.initState).1 =
      .ok (AppleScript.failureDict "p") ∧
    ((AppleScript.handle
        ⟨fun _ => some "tell app", fun _ => .completed 1 "" "err", fun _ => .ok ⟨false, "not done"⟩⟩
        "p" "c" (List.replicate 5 "y") AppleScript.initState).2.2).genCalls =
      AppleScript.initState.genCalls + 5 ∧
    ((AppleScript.handle
        ⟨fun _ => some "tell app", fun _ => .completed 1 "" "err", fun _ => .ok ⟨false, "not done"⟩⟩
        "p" "c" (List.replicate 5 "y") AppleScript.initState).2.2).runCalls =
      AppleScript.initState.runCalls + 5 ∧
    ((AppleScript.handle
        ⟨fun _ => some "tell app", fun _ => .completed 1 "" "err", fun _ => .ok ⟨false, "not done"⟩⟩
        "p" "c" (List.replicate 5 "y") AppleScript.initState).2.2).verifyCalls =
      AppleScript.initState.verifyCalls + 5 ∧
    (Agent.execApplescriptStep
        ⟨fun _ => some "do it", fun _ => .timedOut, fun _ => .ok ⟨false, "nope"⟩⟩
        "s" 1 (List.replicate 3 "y") Agent.initAState).1 = .failed ∧
    ((Agent.execApplescriptStep
        ⟨fun _ => some "do it", fun _ => .timedOut, fun _ => .ok ⟨false, "nope"⟩⟩
        "s" 1 (List.replicate 3 "y") Agent.initAState).2.2).genCalls =
      Agent.initAState.genCalls + 3 ∧
    ((Agent.execApplescriptStep
        ⟨fun _ => some "do it", fun _ => .timedOut, fun _ => .ok ⟨false, "nope"⟩⟩
        "s" 1 (List.replicate 3 "y") Agent.initAState).2.2).runCalls =
      Agent.initAState.runCalls + 3 ∧
    ((Agent.execApplescriptStep
        ⟨fun _ => some "do it", fun _ => .timedOut, fun _ => .ok ⟨false, "nope"⟩⟩
        "s" 1 (List.replicate 3 "y") Agent.initAState).2.2).verifyCalls =
      Agent.initAState.verifyCalls + 3 :=
  c2_attempt_cap
    ⟨fun _ => some "tell app", fun _ => .completed 1 "" "err", fun _ => .ok ⟨false, "not done"⟩⟩
    "p" "c" (fun _ => "tell app") (fun _ => "not done") AppleScript.initState
    (fun _ => rfl) (fun _ => by show ("tell app" : String) ≠ ""; decide)
    (fun _ => by show runSuccess (.completed 1 "" "err") = false; decide)
    (fun _ => rfl)
    ⟨fun _ => some "do it", fun _ => .timedOut, fun _ => .ok ⟨false, "nope"⟩⟩
    "s" 1 (fun _ => "do it") (fun _ => "nope") Agent.initAState
    (fun _ => rfl) (fun _ => by show Agent.cleanScript "do it" ≠ ""; decide)
    (fun _ => by show runSuccess .timedOut = false; decide)
    (fun _ => rfl)

/-! ## C8 — attempt history and the module-level singleton -/

/-- Generation only ever appends to the proposed-script history. -/
theorem ps_gen (w : AppleScript.World) (p c : String) (s : AppleScript.HState) :
    ∃ t, ((AppleScript.generateApplescript w p c s).2).ctx.proposed_scripts =
      s.ctx.proposed_scripts ++ t := by
  cases h : w.gen s.genCalls with
  | some script => exact ⟨[script], by simp [AppleScript.generateApplescript, h]⟩
  | none => exact ⟨[], by simp [AppleScript.generateApplescript, h]⟩

/-- The executor leaves the proposed-script history unchanged. -/
theorem ps_exec (w : AppleScript.World) (sc : String) (s : AppleScript.HState) :
    ((AppleScript.executeApplescript w sc s).2).ctx.proposed_scripts =
      s.ctx.proposed_scripts := by
  cases h : w.run s.runCalls <;>
    simp [AppleScript.executeApplescript, h, AppleScript.recExec]

/-- The verifier leaves the proposed-script history unchanged. -/
theorem ps_verify (w : AppleScript.World) (er : AppleScript.ExecResult)
    (s : AppleScript.HState) :
    ((AppleScript.verifyTaskCompletion w er s).2).ctx.proposed_scripts =
      s.ctx.proposed_scripts := by
  cases h : w.verify s.verifyCalls <;>
    simp [AppleScript.verifyTaskCompletion, h, AppleScript.recAssessment]

/-- The confirmation prompt leaves the proposed-script history unchanged. -/
theorem ps_confirm : ∀ (inputs : List String) (s : AppleScript.HState),
    ((AppleScript.getUserTaskConfirmation inputs s).2.2).ctx.proposed_scripts =
      s.ctx.proposed_scripts := by
  intro inputs
  induction inputs with
  | nil =>
    intro s
    simp [AppleScript.getUserTaskConfirmation]
  | cons a rest ih =>
    intro s
    by_cases h1 : pyNorm a = "y" ∨ pyNorm a = "yes"
    · simp [AppleScript.getUserTaskConfirmation, h1, AppleScript.recConfirmation]
    · by_cases h2 : pyNorm a = "n" ∨ pyNorm a = "no"
      · cases rest with
        | nil =>
          simp [AppleScript.getUserTaskConfirmation, h1, h2, AppleScript.recConfirmation]
        | cons fb rest2 =>
          by_cases h3 : pyStrip fb ≠ "" <;>
            simp [AppleScript.getUserTaskConfirmation, h1, h2, h3,
              AppleScript.recConfirmation, AppleScript.recFailureReason]
      · simp [AppleScript.getUserTaskConfirmation, h1, h2, ih]

/-- The approval gate only ever appends to the proposed-script history
(through its internal regenerations). -/
theorem ps_gate (w : AppleScript.World) (p c cur : String) (inputs : List String)
    (s : AppleScript.HState) :
    ∃ t, ((AppleScript.getUserScriptApproval w p c cur inputs s).2.2).ctx.proposed_scripts =
      s.ctx.proposed_scripts ++ t := by
  induction cur, inputs, s using AppleScript.getUserScriptApproval.induct w p c with
  | case1 cur s =>
    exact ⟨[], by simp [AppleScript.getUserScriptApproval]⟩
  | case2 cur a rest s ans h =>
    exact ⟨[], by simp [AppleScript.getUserScriptApproval, h, AppleScript.recApproval]⟩
  | case3 cur a s ans h1 h2 =>
    exact ⟨[], by simp [AppleScript.getUserScriptApproval, h1, h2, AppleScript.recApproval]⟩
  | case4 cur a s ans h1 h2 s1 fb rest2 f h3 gr x =>
    have h1' : ¬(pyNorm a = "y" ∨ pyNorm a = "yes") := h1
    have h2' : pyNorm a = "n" ∨ pyNorm a = "no" := h2
    have h3' : pyStrip fb ≠ "" := h3
    have x' : (AppleScript.generateApplescript w p c
        (AppleScript.recFeedback (pyStrip fb) (AppleScript.recApproval false s))).1 =
          some "" := x
    obtain ⟨t1, ht1⟩ := ps_gen w p c
      (AppleScript.recFeedback (pyStrip fb) (AppleScript.recApproval false s))
    refine ⟨t1, ?_⟩
    simp [AppleScript.getUserScriptApproval, h1', h2', h3', x']
    rw [ht1]
    simp [AppleScript.recFeedback, AppleScript.recApproval]
  | case5 cur a s ans h1 h2 s1 fb rest2 f h3 gr script x h4 ih =>
    have h1' : ¬(pyNorm a = "y" ∨ pyNorm a = "yes") := h1
    have h2' : pyNorm a = "n" ∨ pyNorm a = "no" := h2
    have h3' : pyStrip fb ≠ "" := h3
    have x' : (AppleScript.generateApplescript w p c
        (AppleScript.recFeedback (pyStrip fb) (AppleScript.recApproval false s))).1 =
          some script := x
    obtain ⟨t1, ht1⟩ := ps_gen w p c
      (AppleScript.recFeedback (pyStrip fb) (AppleScript.recApproval false s))
    obtain ⟨t2, ht2⟩ := ih
    have ht2' : ((AppleScript.getUserScriptApproval w p c script rest2
        (AppleScript.generateApplescript w p c
          (AppleScript.recFeedback (pyStrip fb)
            (AppleScript.recApproval false s))).2).2.2).ctx.proposed_scripts =
        ((AppleScript.generateApplescript w p c
          (AppleScript.recFeedback (pyStrip fb)
            (AppleScript.recApproval false s))).2).ctx.proposed_scripts ++ t2 := ht2
    refine ⟨t1 ++ t2, ?_⟩
    simp [AppleScript.getUserScriptApproval, h1', h2', h3', x', h4]
    rw [ht2', ht1]
    simp [AppleScript.recFeedback, AppleScript.recApproval, List.append_assoc]
  | case6 cur a s ans h1 h2 s1 fb rest2 f h3 gr x =>
    have h1' : ¬(pyNorm a = "y" ∨ pyNorm a = "yes") := h1
    have h2' : pyNorm a = "n" ∨ pyNorm a = "no" := h2
    have h3' : pyStrip fb ≠ "" := h3
    have x' : (AppleScript.generateApplescript w p c
        (AppleScript.recFeedback (pyStrip fb) (AppleScript.recApproval false s))).1 =
          none := x
    obtain ⟨t1, ht1⟩ := ps_gen w p c
      (AppleScript.recFeedback (pyStrip fb) (AppleScript.recApproval false s))
    refine ⟨t1, ?_⟩
    simp [AppleScript.getUserScriptApproval, h1', h2', h3', x']
    rw [ht1]
    simp [AppleScript.recFeedback, AppleScript.recApproval]
  | case7 cur a s ans h1 h2 fb rest2 f h3 =>
    have h1' : ¬(pyNorm a = "y" ∨ pyNorm a = "yes") := h1
    have h2' : pyNorm a = "n" ∨ pyNorm a = "no" := h2
    have h3' : ¬(pyStrip fb ≠ "") := h3
    exact ⟨[], by simp [AppleScript.getUserScriptApproval, h1', h2', h3',
      AppleScript.recFeedback, AppleScript.recApproval]⟩
  | case8 cur a rest s ans h1 h2 ih =>
    have h1' : ¬(pyNorm a = "y" ∨ pyNorm a = "yes") := h1
    have h2' : ¬(pyNorm a = "n" ∨ pyNorm a = "no") := h2
    obtain ⟨t, ht⟩ := ih
    exact ⟨t, by simp [AppleScript.getUserScriptApproval, h1', h2', ht]⟩

/-- Transitivity of append-only growth. -/
theorem ps_compose {α : Type} {a b c : List α}
    (h1 : ∃ t, b = a ++ t) (h2 : ∃ t, c = b ++ t) : ∃ t, c = a ++ t := by
  obtain ⟨t1, ht1⟩ := h1
  obtain ⟨t2, ht2⟩ := h2
  exact ⟨t1 ++ t2, by rw [ht2, ht1, List.append_assoc]⟩

/-- The whole attempt loop only ever appends to the proposed-script
history: nothing is discarded at any resolution. -/
theorem ps_handleLoop (w : AppleScript.World) (p c : String) :
    ∀ (fuel : Nat) (inputs : List String) (s : AppleScript.HState),
      ∃ t, ((AppleScript.handleLoop w p c fuel inputs s).2.2).ctx.proposed_scripts =
        s.ctx.proposed_scripts ++ t := by
  intro fuel
  induction fuel with
  | zero =>
    intro inputs s
    exact ⟨[], by simp [AppleScript.handleLoop]⟩
  | succ fuel ih =>
    intro inputs s
    obtain ⟨tg, htg⟩ := ps_gen w p c s
    simp only [AppleScript.handleLoop]
    split
    · exact ps_compose ⟨tg, htg⟩ (ih _ _)
    · rename_i x script heq
      split
      · exact ps_compose ⟨tg, htg⟩ (ih _ _)
      · split
        · split
          · split
            · refine ps_compose
                (ps_compose ⟨tg, htg⟩
                  (ps_gate w p c script inputs (AppleScript.generateApplescript w p c s).2))
                ⟨[], ?_⟩
              rw [ps_confirm, ps_verify, ps_exec]
              simp
            · refine ps_compose
                (ps_compose
                  (ps_compose ⟨tg, htg⟩
                    (ps_gate w p c script inputs (AppleScript.generateApplescript w p c s).2))
                  ⟨[], ?_⟩)
                (ih _ _)
              rw [ps_confirm, ps_verify, ps_exec]
              simp
            · refine ps_compose
                (ps_compose ⟨tg, htg⟩
                  (ps_gate w p c script inputs (AppleScript.generateApplescript w p c s).2))
                ⟨[], ?_⟩
              rw [ps_confirm, ps_verify, ps_exec]
              simp
          · refine ps_compose
              (ps_compose
                (ps_compose ⟨tg, htg⟩
                  (ps_gate w p c script inputs (AppleScript.generateApplescript w p c s).2))
                ⟨[], ?_⟩)
              (ih _ _)
            show (AppleScript.recFailureReason _ _).ctx.proposed_scripts = _
            rw [AppleScript.recFailureReason]
            rw [ps_verify, ps_exec]
            simp
        · exact ps_compose ⟨tg, htg⟩
            (ps_gate w p c script inputs (AppleScript.generateApplescript w p c s).2)
        · exact ps_compose ⟨tg, htg⟩
            (ps_gate w p c script inputs (AppleScript.generateApplescript w p c s).2)

theorem str_ne_empty_of_data (s : String) (h : s.data ≠ []) : s ≠ "" := by
  intro he
  exact h (he ▸ rfl)

/-- The newline-join of a list starting with a nonempty part is nonempty. -/
theorem joinParts_head_ne (a : String) (l : List String) (h : a.data ≠ []) :
    joinParts (a :: l) ≠ "" := by
  cases l with
  | nil => exact str_ne_empty_of_data a h
  | cons p ps =>
    apply str_ne_empty_of_data
    show (a ++ "\n" ++ joinParts (p :: ps)).data ≠ []
    rw [String.data_append, String.data_append]
    intro habs
    exact h (List.append_eq_nil.mp (List.append_eq_nil.mp habs).1).1

/-- As soon as any proposal has been recorded, `_get_context_summary`
produces a nonempty summary. -/
theorem contextSummary_ne (c : AppleScript.InternalContext)
    (h : c.proposed_scripts ≠ []) : AppleScript.contextSummary c ≠ "" := by
  obtain ⟨x, xs, hx⟩ : ∃ x xs, c.proposed_scripts = x :: xs := by
    cases hcc : c.proposed_scripts with
    | nil => exact absurd hcc h
    | cons x xs => exact ⟨x, xs, rfl⟩
  unfold AppleScript.contextSummary
  rw [hx]
  simp only [List.isEmpty_cons, List.cons_append, Bool.false_eq_true, if_false]
  exact joinParts_head_ne _ _ (by decide)

/-- Once any proposal is recorded, every following generation request
embeds the full internal-context summary after the header
`"Internal context from previous attempts:"` — regardless of which step
recorded that history. -/
theorem genRequest_embeds_history (w : AppleScript.World) (prompt context : String)
    (s : AppleScript.HState) (h : s.ctx.proposed_scripts ≠ []) :
    ((AppleScript.generateApplescript w prompt context s).2).genRequests =
      s.genRequests ++
        ["Task prompt: " ++ prompt ++ "\nExternal context: " ++ context ++
          "\n\nInternal context from previous attempts:\n" ++
          AppleScript.contextSummary s.ctx] := by
  have hs := contextSummary_ne s.ctx h
  cases hg : w.gen s.genCalls <;>
    simp [AppleScript.generateApplescript, hg, hs]

/-- The world of the C8 counterexample run: generation yields `"s0"` for
the first request of the process and `"s1"` afterwards; every execution
exits 0 and every verification answers accomplished. -/
def c8World : MasterAgent.MWorld :=
  ⟨fun _ => .ok "irrelevant",
   ⟨fun n => some (if n = 0 then "s0" else "s1"),
    fun _ => .completed 0 "ok" "",
    fun _ => .ok ⟨true, "done"⟩⟩⟩

/-- A plan of two AppleScript steps. -/
def c8Plan : List MasterAgent.Step :=
  [⟨"p1", .applescript⟩, ⟨"p2", .applescript⟩]

/-- C8 (counterexample): running a two-AppleScript-step plan through the
orchestrator (each step approved, executed, verified and confirmed), the
module-level singleton still holds step 1's proposed script after both
steps resolved, and the generation request issued during step 2 contains
`"Attempt 1: s0"` — step 1's attempt data is visible to step 2's
controller run, so it was not discarded when step 1 resolved. -/
theorem c8_counterexample :
    ((MasterAgent.executeSteps c8World c8Plan
        (MasterAgent.initMState ["y", "y", "y", "y"])).2.asState).ctx.proposed_scripts =
      ["s0", "s1"] ∧
    containsSub
      (((MasterAgent.executeSteps c8World c8Plan
          (MasterAgent.initMState ["y", "y", "y", "y"])).2.asState).genRequests.getD 1 "")
      "Attempt 1: s0" = true := by
  constructor
  · set_option maxRecDepth 4000 in rfl
  · set_option maxRecDepth 10000 in rfl

/-- C8 (amended): the attempt history lives in the module-level
`AppleScriptHandler` singleton and survives step resolution — `handle` only
ever appends to the proposed-script history, for every world, console
script and starting state — and as soon as any proposal is on record,
every later generation request (in whatever step) embeds the full
internal-context summary. -/
theorem c8_history_persistence :
    (∀ (w : AppleScript.World) (prompt context : String) (inputs : List String)
        (s : AppleScript.HState),
      ∃ t, ((AppleScript.handle w prompt context inputs s).2.2).ctx.proposed_scripts =
        s.ctx.proposed_scripts ++ t) ∧
    (∀ (w : AppleScript.World) (prompt context : String) (s : AppleScript.HState),
      s.ctx.proposed_scripts ≠ [] →
      ((AppleScript.generateApplescript w prompt context s).2).genRequests =
        s.genRequests ++
          ["Task prompt: " ++ prompt ++ "\nExternal context: " ++ context ++
            "\n\nInternal context from previous attempts:\n" ++
            AppleScript.contextSummary s.ctx]) :=
  ⟨fun w p c inputs s => ps_handleLoop w p c 5 inputs s, genRequest_embeds_history⟩

/-- C8 witness: a concrete state carrying one recorded proposal. -/
theorem c8_history_persistence_witness :
    (∃ t, ((AppleScript.handle
        ⟨fun _ => some "s1", fun _ => .completed 0 "" "", fun _ => .ok ⟨true, "ok"⟩⟩
        "p" "c" ["y", "y"]
        ⟨⟨["s0"], [true], [], ["s0"], ["ok"], ["a"], [true], []⟩, 1, 1, 1,
          ["r0"]⟩).2.2).ctx.proposed_scripts = ["s0"] ++ t) ∧
    ((AppleScript.generateApplescript
        ⟨fun _ => some "s1", fun _ => .completed 0 "" "", fun _ => .ok ⟨true, "ok"⟩⟩
        "p" "c"
        ⟨⟨["s0"], [true], [], ["s0"], ["ok"], ["a"], [true], []⟩, 1, 1, 1,
          ["r0"]⟩).2).genRequests =
      ["r0"] ++
        ["Task prompt: " ++ "p" ++ "\nExternal context: " ++ "c" ++
          "\n\nInternal context from previous attempts:\n" ++
          AppleScript.contextSummary ⟨["s0"], [true], [], ["s0"], ["ok"], ["a"], [true], []⟩] :=
  ⟨c8_history_persistence.1
      ⟨fun _ => some "s1", fun _ => .completed 0 "" "", fun _ => .ok ⟨true, "ok"⟩⟩
      "p" "c" ["y", "y"]
      ⟨⟨["s0"], [true], [], ["s0"], ["ok"], ["a"], [true], []⟩, 1, 1, 1, ["r0"]⟩,
   c8_history_persistence.2
      ⟨fun _ => some "s1", fun _ => .completed 0 "" "", fun _ => .ok ⟨true, "ok"⟩⟩
      "p" "c"
      ⟨⟨["s0"], [true], [], ["s0"], ["ok"], ["a"], [true], []⟩, 1, 1, 1, ["r0"]⟩
      (by decide)⟩

/-! ## C1 and C7 — the plan walk -/

/-- The research handler call always returns a result dict (never raises)
and advances only the search cursor. -/
theorem callStep_research (w : MasterAgent.MWorld) (p : String) (s : MasterAgent.MState) :
    MasterAgent.callStep w .research p s =
      (.ok (Research.handle w.search p s.context_string s.searchCalls).1,
       { s with searchCalls := s.searchCalls + 1 }) := by
  cases h : w.search s.searchCalls <;>
    simp [MasterAgent.callStep, Research.handle, h]

/-- No handler call ever touches the orchestrator's structured context. -/
theorem callStep_context (w : MasterAgent.MWorld) (hid : MasterAgent.HandlerId)
    (p : String) (s : MasterAgent.MState) :
    ((MasterAgent.callStep w hid p s).2).context = s.context := by
  cases hid with
  | research =>
    cases h : w.search s.searchCalls <;>
      simp [MasterAgent.callStep, Research.handle, h]
  | applescript =>
    rcases h : AppleScript.handle w.as p s.context_string s.inputs s.asState with ⟨hr, i1, a1⟩
    cases hr <;> simp [MasterAgent.callStep, h]

/-- The walk appends exactly one context entry per step whose handler
returned a dict, and none otherwise. -/
theorem executeStepsGo_context_len (w : MasterAgent.MWorld) :
    ∀ (plan : List MasterAgent.Step) (i : Nat) (s : MasterAgent.MState),
      ((MasterAgent.executeStepsGo w plan i s).2).context.length =
        s.context.length +
          (MasterAgent.executeStepsGo w plan i s).1.countP (fun e => e.2) := by
  intro plan
  induction plan with
  | nil =>
    intro i s
    simp [MasterAgent.executeStepsGo]
  | cons step rest ih =>
    intro i s
    cases hh : MasterAgent.getHandler step.task_classification with
    | none => simp [MasterAgent.executeStepsGo, hh]
    | some hid =>
      have hctx := callStep_context w hid step.prompt s
      rcases hc : MasterAgent.callStep w hid step.prompt s with ⟨cr, s1⟩
      rw [hc] at hctx
      have hctx' : s1.context = s.context := hctx
      cases cr with
      | exn =>
        simp [MasterAgent.executeStepsGo, hh, hc, hctx', List.countP_cons]
      | ok d =>
        simp [MasterAgent.executeStepsGo, hh, hc, ih, List.countP_cons, hctx',
          List.length_append]
        omega

/-- C1 (counterexample): a 3-step plan of web-search steps in which step 2
resolves as a failure (its result dict carries `error = True` because the
search service raised): the walk does not stop — step 3's handler is
invoked once, so the trace is `[(1, true), (2, true), (3, true)]` instead
of ending at step 2. -/
theorem c1_counterexample :
    (MasterAgent.executeSteps
        ⟨fun n => if n = 1 then .error "boom" else .ok "info",
         ⟨fun _ => none, fun _ => .timedOut, fun _ => .error "x"⟩⟩
        [⟨"q1", .web_search⟩, ⟨"q2", .web_search⟩, ⟨"q3", .web_search⟩]
        (MasterAgent.initMState [])).1 = [(1, true), (2, true), (3, true)] ∧
    dget (((MasterAgent.executeSteps
        ⟨fun n => if n = 1 then .error "boom" else .ok "info",
         ⟨fun _ => none, fun _ => .timedOut, fun _ => .error "x"⟩⟩
        [⟨"q1", .web_search⟩, ⟨"q2", .web_search⟩, ⟨"q3", .web_search⟩]
        (MasterAgent.initMState [])).2).context.getD 1 []) "error" =
      some (.bool true) :=
  ⟨rfl, rfl⟩

/-- C1 (amended): the walk is fail-fast only for handler exceptions and
unregistered classifications.  For a 3-step plan whose second step's handler
raises (here: an AppleScript step hitting end of console input after its
script was generated) the trace is `[(1, true), (2, false)]` — step 3's
handler runs zero times; for a second step with no registered handler
(`browser`) the trace is `[(1, true)]` — the walk stops without invoking it;
but a step that merely resolves as a failure result does not stop the walk:
all three handlers run. -/
theorem c1_fail_fast (w : MasterAgent.MWorld) (p1 p2 p3 g0 e : String)
    (hg : w.as.gen 0 = some g0) (hne : g0 ≠ "") (he : w.search 1 = .error e) :
    (MasterAgent.executeSteps w
        [⟨p1, .web_search⟩, ⟨p2, .applescript⟩, ⟨p3, .web_search⟩]
        (MasterAgent.initMState [])).1 = [(1, true), (2, false)] ∧
    (MasterAgent.executeSteps w
        [⟨p1, .web_search⟩, ⟨p2, .browser⟩, ⟨p3, .web_search⟩]
        (MasterAgent.initMState [])).1 = [(1, true)] ∧
    (MasterAgent.executeSteps w
        [⟨p1, .web_search⟩, ⟨p2, .web_search⟩, ⟨p3, .web_search⟩]
        (MasterAgent.initMState [])).1 = [(1, true), (2, true), (3, true)] ∧
    dget (((MasterAgent.executeSteps w
        [⟨p1, .web_search⟩, ⟨p2, .web_search⟩, ⟨p3, .web_search⟩]
        (MasterAgent.initMState [])).2).context.getD 1 []) "error" =
      some (.bool true) := by
  refine ⟨?_, ?_, ?_, ?_⟩
  · simp [MasterAgent.executeSteps, MasterAgent.executeStepsGo, MasterAgent.getHandler,
      callStep_research, MasterAgent.callStep, MasterAgent.initMState,
      AppleScript.handle, AppleScript.handleLoop, AppleScript.generateApplescript,
      AppleScript.initState, AppleScript.emptyContext, AppleScript.contextSummary,
      joinParts, hg, hne, AppleScript.getUserScriptApproval]
  · simp [MasterAgent.executeSteps, MasterAgent.executeStepsGo, MasterAgent.getHandler,
      callStep_research, MasterAgent.initMState]
  · simp [MasterAgent.executeSteps, MasterAgent.executeStepsGo, MasterAgent.getHandler,
      callStep_research, MasterAgent.initMState]
  · simp [MasterAgent.executeSteps, MasterAgent.executeStepsGo, MasterAgent.getHandler,
      callStep_research, MasterAgent.initMState, Research.handle, he, dget]

/-- C1 witness: a concrete world satisfying the three hypotheses. -/
theorem c1_fail_fast_witness :
    (MasterAgent.executeSteps
        ⟨fun n => if n = 1 then .error "down" else .ok "found",
         ⟨fun _ => some "tell app", fun _ => .completed 0 "" "", fun _ => .ok ⟨true, "ok"⟩⟩⟩
        [⟨"a", .web_search⟩, ⟨"b", .applescript⟩, ⟨"c", .web_search⟩]
        (MasterAgent.initMState [])).1 = [(1, true), (2, false)] ∧
    (MasterAgent.executeSteps
        ⟨fun n => if n = 1 then .error "down" else .ok "found",
         ⟨fun _ => some "tell app", fun _ => .completed 0 "" "", fun _ => .ok ⟨true, "ok"⟩⟩⟩
        [⟨"a", .web_search⟩, ⟨"b", .browser⟩, ⟨"c", .web_search⟩]
        (MasterAgent.initMState [])).1 = [(1, true)] ∧
    (MasterAgent.executeSteps
        ⟨fun n => if n = 1 then .error "down" else .ok "found",
         ⟨fun _ => some "tell app", fun _ => .completed 0 "" "", fun _ => .ok ⟨true, "ok"⟩⟩⟩
        [⟨"a", .web_search⟩, ⟨"b", .web_search⟩, ⟨"c", .web_search⟩]
        (MasterAgent.initMState [])).1 = [(1, true), (2, true), (3, true)] ∧
    dget (((MasterAgent.executeSteps
        ⟨fun n => if n = 1 then .error "down" else .ok "found",
         ⟨fun _ => some "tell app", fun _ => .completed 0 "" "", fun _ => .ok ⟨true, "ok"⟩⟩⟩
        [⟨"a", .web_search⟩, ⟨"b", .web_search⟩, ⟨"c", .web_search⟩]
        (MasterAgent.initMState [])).2).context.getD 1 []) "error" =
      some (.bool true) :=
  c1_fail_fast
    ⟨fun n => if n = 1 then .error "down" else .ok "found",
     ⟨fun _ => some "tell app", fun _ => .completed 0 "" "", fun _ => .ok ⟨true, "ok"⟩⟩⟩
    "a" "b" "c" "tell app" "down" rfl (by decide) rfl

/-- C7 (counterexample): a single web-search step that resolves as a
failure (`error = True`) still gets its result appended to
ExecutionContext — the context has one entry afterwards, not zero. -/
theorem c7_counterexample :
    ((MasterAgent.executeSteps
        ⟨fun _ => .error "down", ⟨fun _ => none, fun _ => .timedOut, fun _ => .error "x"⟩⟩
        [⟨"q", .web_search⟩] (MasterAgent.initMState [])).2).context.length = 1 ∧
    dget (((MasterAgent.executeSteps
        ⟨fun _ => .error "down", ⟨fun _ => none, fun _ => .timedOut, fun _ => .error "x"⟩⟩
        [⟨"q", .web_search⟩] (MasterAgent.initMState [])).2).context.getD 0 [])
      "error" = some (.bool true) :=
  ⟨rfl, rfl⟩

/-- C7 (amended): for every world, plan and starting state, the length of
ExecutionContext after the walk equals its length before plus the number of
steps whose handler returned a result — every returned step (successful or
error-flagged alike) appends exactly one entry, and steps whose handler
raised, steps without a registered handler and steps never attempted after
the halt append nothing. -/
theorem c7_context_append (w : MasterAgent.MWorld) (plan : List MasterAgent.Step)
    (s : MasterAgent.MState) :
    ((MasterAgent.executeSteps w plan s).2).context.length =
      s.context.length +
        (MasterAgent.executeSteps w plan s).1.countP (fun e => e.2) :=
  executeStepsGo_context_len w plan 1 s

/-! ## C9 — CLI exit codes -/

/-- One attempt with an approving user and a satisfied verifier succeeds
and consumes exactly one console line. -/
theorem execApplescriptStep_success
    (w2 : Agent.World) (step : String) (g2 fb2 : Nat → String)
    (hg2 : ∀ n, w2.gen n = some (g2 n))
    (h2ne : ∀ n, Agent.cleanScript (g2 n) ≠ "")
    (hver2 : ∀ n, w2.verify n = .ok ⟨true, fb2 n⟩)
    (num : Nat) (rest : List String) (s : Agent.AState) :
    (Agent.execApplescriptStep w2 step num ("y" :: rest) s).1 = .succeeded ∧
    (Agent.execApplescriptStep w2 step num ("y" :: rest) s).2.1 = rest := by
  constructor <;>
    simp [Agent.execApplescriptStep, Agent.execStepLoop, Agent.generateApplescript,
      hg2, h2ne, agent_gate_approve, Agent.verifyStepCompletion, hver2]

/-- With one approval per step and an always-satisfied verifier, the legacy
walk completes every step. -/
theorem applescriptHandlerGo_success
    (w2 : Agent.World) (g2 fb2 : Nat → String)
    (hg2 : ∀ n, w2.gen n = some (g2 n))
    (h2ne : ∀ n, Agent.cleanScript (g2 n) ≠ "")
    (hver2 : ∀ n, w2.verify n = .ok ⟨true, fb2 n⟩) :
    ∀ (steps : List String) (num successful : Nat) (s : Agent.AState),
      (Agent.applescriptHandlerGo w2 steps num successful
        (List.replicate steps.length "y") s).1 = .done (successful + steps.length) := by
  intro steps
  induction steps with
  | nil =>
    intro num successful s
    simp [Agent.applescriptHandlerGo]
  | cons step rest ih =>
    intro num successful s
    have hs := execApplescriptStep_success w2 step g2 fb2 hg2 h2ne hver2 num
      (List.replicate rest.length "y") s
    rcases hstep : Agent.execApplescriptStep w2 step num
        ("y" :: List.replicate rest.length "y") s with ⟨res, i1, s1⟩
    rw [hstep] at hs
    have hres : res = .succeeded := hs.1
    have hi1 : i1 = List.replicate rest.length "y" := hs.2
    subst hres hi1
    have hrep : List.replicate (step :: rest).length "y" =
        "y" :: List.replicate rest.length "y" := by
      simp [List.replicate_succ]
    rw [hrep]
    simp only [Agent.applescriptHandlerGo, hstep]
    rw [ih (num + 1) (successful + 1) s1]
    congr 1
    simp only [List.length_cons]
    omega

/-- C9 (counterexample): a master-agent run whose single AppleScript step
resolves as a failure (silent script rejection, so the handler returns its
`error = True` dict) still exits with code 0 — the orchestrator's exit code
does not depend on step failures. -/
theorem c9_counterexample :
    MasterAgent.run
      ⟨fun _ => .ok "x",
       ⟨fun _ => some "tell app", fun _ => .completed 0 "" "", fun _ => .ok ⟨true, "ok"⟩⟩⟩
      (fun _ => .ok [⟨"p", .applescript⟩]) ["y", "n", ""] = 0 ∧
    dget (((MasterAgent.executeSteps
        ⟨fun _ => .ok "x",
         ⟨fun _ => some "tell app", fun _ => .completed 0 "" "", fun _ => .ok ⟨true, "ok"⟩⟩⟩
        [⟨"p", .applescript⟩] (MasterAgent.initMState ["n", ""])).2).context.getD 0 [])
      "error" = some (.bool true) :=
  ⟨rfl, rfl⟩

/-- C9 (amended): the legacy agent CLI exits 0 exactly on full success —
0 when every step of the plan succeeds and 1 when a step fails after its
attempts (or when classification fails) — while the master CLI exits 1 only
for planning errors, plan rejection without feedback, or interruption: once
the plan is approved it exits 0 regardless of how the steps resolve. -/
theorem c9_exit_codes
    (mw : MasterAgent.MWorld) (planOracle : Nat → Except String (List MasterAgent.Step))
    (plan : List MasterAgent.Step) (anyInputs rest : List String) (e : String)
    (w2 : Agent.World) (g2 fb2 : Nat → String)
    (hg2 : ∀ n, w2.gen n = some (g2 n))
    (h2ne : ∀ n, Agent.cleanScript (g2 n) ≠ "")
    (hver2 : ∀ n, w2.verify n = .ok ⟨true, fb2 n⟩)
    (steps : List String)
    (w3 : Agent.World) (g3 fb3 : Nat → String)
    (hg3 : ∀ n, w3.gen n = some (g3 n))
    (h3ne : ∀ n, Agent.cleanScript (g3 n) ≠ "")
    (hrun3 : ∀ n, runSuccess (w3.run n) = false)
    (hver3 : ∀ n, w3.verify n = .ok ⟨false, fb3 n⟩)
    (step1 : String) (others : List String) :
    (planOracle 0 = .error e → MasterAgent.run mw planOracle anyInputs = 1) ∧
    (planOracle 0 = .ok plan → MasterAgent.run mw planOracle ("y" :: rest) = 0) ∧
    (planOracle 0 = .ok plan → MasterAgent.run mw planOracle ("n" :: "" :: rest) = 1) ∧
    (Agent.run w2 (.ok steps) (List.replicate steps.length "y") = 0) ∧
    (Agent.run w3 (.ok (step1 :: others)) (List.replicate 3 "y") = 1) := by
  refine ⟨?_, ?_, ?_, ?_, ?_⟩
  · intro h
    simp [MasterAgent.run, h]
  · intro h
    simp only [MasterAgent.run, h]
    unfold MasterAgent.getUserApproval
    simp [pyNorm_y]
  · intro h
    simp only [MasterAgent.run, h]
    unfold MasterAgent.getUserApproval
    simp [pyNorm_n, pyStrip_empty]
  · have hwalk := applescriptHandlerGo_success w2 g2 fb2 hg2 h2ne hver2 steps 1 0
      Agent.initAState
    rcases hgo : Agent.applescriptHandlerGo w2 steps 1 0
        (List.replicate steps.length "y") Agent.initAState with ⟨hr, i1, s1⟩
    rw [hgo] at hwalk
    have hres : hr = .done (0 + steps.length) := hwalk
    subst hres
    simp [Agent.run, Agent.applescriptHandler, hgo]
  · have hfail := execStepLoop_allFail w3 step1 g3 fb3 hg3 h3ne hrun3 hver3 3 1
      ("Step " ++ toString 1 ++ ": " ++ step1) [] Agent.initAState
    rcases hstep : Agent.execApplescriptStep w3 step1 1 (List.replicate 3 "y")
        Agent.initAState with ⟨res, i1, s1⟩
    have hstep' : Agent.execStepLoop w3 step1 3 1
        ("Step " ++ toString 1 ++ ": " ++ step1) [] (List.replicate 3 "y")
        Agent.initAState = (res, i1, s1) := hstep
    rw [hstep'] at hfail
    have hres : res = .failed := hfail.1
    subst hres
    have hstep2 : Agent.execApplescriptStep w3 step1 1 ["y", "y", "y"] Agent.initAState =
        (.failed, i1, s1) := hstep
    simp [Agent.run, Agent.applescriptHandler, Agent.applescriptHandlerGo, hstep2]

/-- C9 witness: concrete worlds for every hypothesis of the exit-code
theorem. -/
theorem c9_exit_codes_witness :
    (MasterAgent.run
        ⟨fun _ => .ok "x",
         ⟨fun _ => some "s", fun _ => .timedOut, fun _ => .error "v"⟩⟩
        (fun _ => .ok [⟨"p", .applescript⟩]) ("y" :: []) = 0) ∧
    (Agent.run
        ⟨fun _ => some "do it", fun _ => .completed 0 "" "", fun _ => .ok ⟨true, "ok"⟩⟩
        (.ok ["list files"]) (List.replicate (["list files"]).length "y") = 0) ∧
    (Agent.run
        ⟨fun _ => some "do it", fun _ => .timedOut, fun _ => .ok ⟨false, "no"⟩⟩
        (.ok ("list files" :: [])) (List.replicate 3 "y") = 1) := by
  have h := c9_exit_codes
    ⟨fun _ => .ok "x", ⟨fun _ => some "s", fun _ => .timedOut, fun _ => .error "v"⟩⟩
    (fun _ => .ok [⟨"p", .applescript⟩]) [⟨"p", .applescript⟩] [] [] "e"
    ⟨fun _ => some "do it", fun _ => .completed 0 "" "", fun _ => .ok ⟨true, "ok"⟩⟩
    (fun _ => "do it") (fun _ => "ok") (fun _ => rfl)
    (fun _ => by show Agent.cleanScript "do it" ≠ ""; decide) (fun _ => rfl)
    ["list files"]
    ⟨fun _ => some "do it", fun _ => .timedOut, fun _ => .ok ⟨false, "no"⟩⟩
    (fun _ => "do it") (fun _ => "no") (fun _ => rfl)
    (fun _ => by show Agent.cleanScript "do it" ≠ ""; decide)
    (fun _ => by show runSuccess .timedOut = false; decide) (fun _ => rfl)
    "list files" []
  exact ⟨h.2.1 rfl, h.2.2.2.1, h.2.2.2.2⟩
